import Mathlib

/-!
Verification development for the Paper-Trail email parsing pipeline
(`app/parser.py`).  The Python source is shallowly embedded: every regex of
the source is transcribed either into a dedicated matcher (for the
`re.sub`-based HTML normalizer) or into a term of a small backtracking
regular-expression AST (`RE`) whose search function mirrors Python's
leftmost, priority-ordered backtracking semantics.  Strings are modelled as
`List Char` internally (Python string indices are code points); machine
floats of the source only ever hold small decimal confidence tiers, which
are modelled exactly as rationals.
-/

set_option maxHeartbeats 4000000
set_option maxRecDepth 10000

namespace PaperTrail

/- ===================== character helpers ===================== -/

/-- Python's `\s` restricted to ASCII (space, tab, newline, carriage return,
vertical tab, form feed).  The embedding models Python text as ASCII-scoped;
`str.lower`, `\s`, `\w` and friends are ASCII here. -/
def isWsChar (c : Char) : Bool :=
  ([' ', '\t', '\n', '\r', '\x0b', '\x0c'] : List Char).contains c

/-- Python's `\w` (word character) restricted to ASCII. -/
def isWordChar (c : Char) : Bool :=
  c.isAlphanum || c = '_'

/-- ASCII lower-casing of one character (models `str.lower` / `re.IGNORECASE`
folding on the ASCII range). -/
def lowerC (c : Char) : Char :=
  if 'A' ≤ c ∧ c ≤ 'Z' then Char.ofNat (c.toNat + 32) else c

/-- ASCII upper-casing of one character (used by `str.title`). -/
def upperC (c : Char) : Char :=
  if 'a' ≤ c ∧ c ≤ 'z' then Char.ofNat (c.toNat - 32) else c

/-- `str.lower` on a whole string (ASCII model). -/
def strLower (s : String) : String :=
  String.mk (s.data.map lowerC)

/-- `needle in haystack` for Python strings: substring containment. -/
def listPrefixCheck : List Char → List Char → Bool
  | [], _ => true
  | _ :: _, [] => false
  | a :: as, b :: bs => a == b && listPrefixCheck as bs

def containsSub (needle : List Char) : List Char → Bool
  | [] => listPrefixCheck needle []
  | c :: cs => listPrefixCheck needle (c :: cs) || containsSub needle cs

/-- `str.strip()` with no arguments: remove leading and trailing whitespace. -/
def pyStrip (l : List Char) : List Char :=
  ((l.dropWhile isWsChar).reverse.dropWhile isWsChar).reverse

/-- `str.strip('"')`: remove leading and trailing double-quote characters. -/
def pyStripQuotes (l : List Char) : List Char :=
  ((l.dropWhile (· == '"')).reverse.dropWhile (· == '"')).reverse

/- ===================== re.sub engine =====================

`pySubGo m s` is Python's `re.sub` specialised to the patterns of
`strip_html`: at each position it tries the matcher `m` (which returns the
replacement text and the remainder after the match); on success it emits the
replacement and continues after the match, otherwise it emits one character
and moves on.  All the matched patterns consume at least one character, so
the guard `rest.length ≤ cs.length` never actually redirects; it only makes
termination structural. -/

def pySubGoF (m : List Char → Option (List Char × List Char)) :
    Nat → List Char → List Char
  | _, [] => []
  | 0, _ :: _ => []
  | fuel + 1, c :: cs =>
    match m (c :: cs) with
    | some (repl, rest) => repl ++ pySubGoF m fuel rest
    | none => c :: pySubGoF m fuel cs

/-- Fuel `s.length` always suffices: every matcher consumes at least one
character per replacement, and a failed position advances by one, so the
fuel-exhausted branch is unreachable. -/
def pySubGo (m : List Char → Option (List Char × List Char)) (s : List Char) :
    List Char :=
  pySubGoF m s.length s

/- ===================== strip_html matchers =====================

Each matcher transcribes one `re.sub` pattern of `strip_html`
(`app/parser.py`, lines 240-247).  All are anchored at the start of the
supplied suffix and return the remainder after the match. -/

/-- Matcher for `<br\s*/?>` (re.IGNORECASE): `<`, `b`, `r`, optional
whitespace, optional `/`, then `>`. -/
def mBr : List Char → Option (List Char)
  | '<' :: c1 :: c2 :: rest =>
    if lowerC c1 = 'b' ∧ lowerC c2 = 'r' then
      match rest.dropWhile isWsChar with
      | '/' :: '>' :: r => some r
      | '>' :: r => some r
      | _ => none
    else none
  | _ => none

/-- Matcher for `<p[^>]*>` (re.IGNORECASE): `<`, `p`, any run of non-`>`
characters, then `>`. -/
def mPOpen : List Char → Option (List Char)
  | '<' :: c1 :: rest =>
    if lowerC c1 = 'p' then
      match rest.dropWhile (fun c => ¬ (c = '>')) with
      | '>' :: r => some r
      | _ => none
    else none
  | _ => none

/-- Matcher for `</p>` (re.IGNORECASE). -/
def mPClose : List Char → Option (List Char)
  | '<' :: '/' :: c1 :: '>' :: r =>
    if lowerC c1 = 'p' then some r else none
  | _ => none

/-- Matcher for `<[^>]+>`: `<`, at least one non-`>` character, then `>`. -/
def mTag : List Char → Option (List Char)
  | '<' :: rest =>
    if (rest.takeWhile (fun c => ¬ (c = '>'))).isEmpty then none
    else
      match rest.dropWhile (fun c => ¬ (c = '>')) with
      | '>' :: r => some r
      | _ => none
  | _ => none

/-- Matcher for `\s+`: a maximal nonempty whitespace run. -/
def mWsRun : List Char → Option (List Char)
  | c :: cs => if isWsChar c then some (cs.dropWhile isWsChar) else none
  | [] => none

/-- Index of the last `'\n'` in a list, if any. -/
def lastNlIdx : List Char → Option Nat
  | [] => none
  | c :: cs =>
    match lastNlIdx cs with
    | some i => some (i + 1)
    | none => if c = '\n' then some 0 else none

/-- Matcher for `\n\s*\n`: a newline, then greedy whitespace backtracked to
the last newline it contains. -/
def mNlPair : List Char → Option (List Char)
  | '\n' :: rest =>
    (lastNlIdx (rest.takeWhile isWsChar)).map (fun i => rest.drop (i + 1))
  | _ => none

/- ===================== html.unescape model =====================

`html.unescape` is Python standard library (an external collaborator of the
repository); it is modelled here by the common named character references
plus decimal and hexadecimal numeric references, each requiring the closing
semicolon.  The full HTML5 entity table is outside the embedded program. -/

def namedEntities : List (List Char × Char) :=
  [("amp;".data, '&'), ("lt;".data, '<'), ("gt;".data, '>'),
   ("quot;".data, '"'), ("apos;".data, '\''), ("nbsp;".data, '\xa0')]

def hexVal (c : Char) : Option Nat :=
  if '0' ≤ c ∧ c ≤ '9' then some (c.toNat - '0'.toNat)
  else if 'a' ≤ c ∧ c ≤ 'f' then some (c.toNat - 'a'.toNat + 10)
  else if 'A' ≤ c ∧ c ≤ 'F' then some (c.toNat - 'A'.toNat + 10)
  else none

def digitsVal (base : Nat) : Nat → List Char → Option (Nat × List Char)
  | acc, c :: cs =>
    match hexVal c with
    | some v =>
      if v < base then
        match digitsVal base (acc * base + v) cs with
        | some r => some r
        | none => some (acc * base + v, cs)
      else none
    | none => none
  | _, [] => none

def charOfCode (n : Nat) : Char :=
  if n < 55296 ∨ (57344 ≤ n ∧ n < 1114112) then Char.ofNat n else '�'

def entMatch : List (List Char × Char) → List Char → Option (List Char × List Char)
  | [], _ => none
  | (name, ch) :: rest, s =>
    if listPrefixCheck name s then some ([ch], s.drop name.length)
    else entMatch rest s

/-- Matcher for one character reference starting at `&`. -/
def mEntity : List Char → Option (List Char × List Char)
  | '&' :: '#' :: 'x' :: rest =>
    match digitsVal 16 0 rest with
    | some (n, ';' :: r) => some ([charOfCode n], r)
    | _ => none
  | '&' :: '#' :: 'X' :: rest =>
    match digitsVal 16 0 rest with
    | some (n, ';' :: r) => some ([charOfCode n], r)
    | _ => none
  | '&' :: '#' :: rest =>
    match digitsVal 10 0 rest with
    | some (n, ';' :: r) => some ([charOfCode n], r)
    | _ => none
  | '&' :: rest => entMatch namedEntities rest
  | _ => none

def unescapeHtml (l : List Char) : List Char :=
  pySubGo mEntity l

/- ===================== strip_html ===================== -/

def constRepl (r : List Char) (m : List Char → Option (List Char)) :
    List Char → Option (List Char × List Char) :=
  fun s => (m s).map (fun rest => (r, rest))

/-- `strip_html` (`app/parser.py`, lines 238-247), step by step in source
order: `<br\s*/?>` → newline, `<p[^>]*>` → newline, `</p>` → newline,
`<[^>]+>` → space, `html.unescape`, `\s+` → single space, `\n\s*\n` → two
newlines, then `str.strip`. -/
def stripHtmlL (l : List Char) : List Char :=
  pyStrip
    (pySubGo (constRepl "\n\n".data mNlPair)
      (pySubGo (constRepl [' '] mWsRun)
        (unescapeHtml
          (pySubGo (constRepl [' '] mTag)
            (pySubGo (constRepl ['\n'] mPClose)
              (pySubGo (constRepl ['\n'] mPOpen)
                (pySubGo (constRepl ['\n'] mBr) l)))))))

def strip_html (s : String) : String :=
  String.mk (stripHtmlL s.data)

/- The spec's wording of the normalizer differs from the source in one step:
"collapse 3 or more consecutive newlines to exactly two".  `spec3NlAux`
implements that wording literally; the surrounding steps are the same
operations in the same order. -/

def spec3NlRun (n : Nat) : List Char :=
  if 3 ≤ n then ['\n', '\n'] else List.replicate n '\n'

def spec3NlAux : Nat → List Char → List Char
  | n, [] => spec3NlRun n
  | n, c :: cs =>
    if c = '\n' then spec3NlAux (n + 1) cs
    else spec3NlRun n ++ c :: spec3NlAux 0 cs

/-- The normalizer as the spec words it: identical to the source except that
the newline-collapsing step reads "collapse 3+ consecutive newlines to
exactly two". -/
def specNormalizeL (l : List Char) : List Char :=
  pyStrip
    (spec3NlAux 0
      (pySubGo (constRepl [' '] mWsRun)
        (unescapeHtml
          (pySubGo (constRepl [' '] mTag)
            (pySubGo (constRepl ['\n'] mPClose)
              (pySubGo (constRepl ['\n'] mPOpen)
                (pySubGo (constRepl ['\n'] mBr) l)))))))

def specNormalize (s : String) : String :=
  String.mk (specNormalizeL s.data)

/- ===================== regular-expression engine =====================

A small backtracking engine for the `re.search` patterns of the source.
Quantifiers are restricted to single-character classes — exactly the shape
of every quantified subterm in the source's patterns — which keeps the
matcher structurally recursive.  `mrun` returns every way the pattern can
match a prefix of the input, in Python's backtracking priority order
(alternation tries the left branch first, greedy quantifiers longest first,
lazy quantifiers shortest first); `reSearch` then scans start positions left
to right, so the head of the first nonempty result list is exactly the match
`re.search` reports. -/

inductive RE where
  | lit (s : List Char) (ci : Bool)
  | cls (p : Char → Bool)
  | star (p : Char → Bool)
  | plus (p : Char → Bool)
  | plusL (p : Char → Bool)
  | optc (p : Char → Bool)
  | optR (r : RE)
  | seq (a b : RE)
  | alt (a b : RE)
  | grp (r : RE)
  | wb

/-- Match a literal, returning the last consumed text character and the rest. -/
def litMatch (ci : Bool) : List Char → Option Char → List Char → Option (Option Char × List Char)
  | [], prev, s => some (prev, s)
  | p :: ps, _prev, c :: cs =>
    if (if ci then lowerC p = lowerC c else p = c) then litMatch ci ps (some c) cs
    else none
  | _ :: _, _, [] => none

/-- Alternatives for a greedy quantifier over a character class: consume
`k, k-1, …, lo` characters of the maximal run. -/
def greedyAlts (lo : Nat) (prev : Option Char) (s : List Char) :
    Nat → List (Option Char × List Char)
  | 0 => if lo = 0 then [(prev, s)] else []
  | k + 1 =>
    (if lo ≤ k + 1 then
      [(some ((s.take (k + 1)).getLastD ' '), s.drop (k + 1))]
    else []) ++ greedyAlts lo prev s k

/-- Alternatives for a lazy quantifier: consume `lo, lo+1, …, k` characters. -/
def lazyAlts (lo : Nat) (prev : Option Char) (s : List Char) (k : Nat) :
    List (Option Char × List Char) :=
  (greedyAlts lo prev s k).reverse

def wordOpt : Option Char → Bool
  | none => false
  | some c => isWordChar c

/-- One match state: capture of the (single) group, previous text character,
remaining input. -/
abbrev MSt := Option (List Char) × Option Char × List Char

def mrun : RE → Option Char → List Char → List MSt
  | .lit pat ci, prev, s =>
    match litMatch ci pat prev s with
    | some (p, rest) => [(none, p, rest)]
    | none => []
  | .cls p, _prev, s =>
    match s with
    | c :: cs => if p c then [(none, some c, cs)] else []
    | [] => []
  | .star p, prev, s =>
    (greedyAlts 0 prev s (s.takeWhile p).length).map (fun pr => (none, pr.1, pr.2))
  | .plus p, prev, s =>
    (greedyAlts 1 prev s (s.takeWhile p).length).map (fun pr => (none, pr.1, pr.2))
  | .plusL p, prev, s =>
    (lazyAlts 1 prev s (s.takeWhile p).length).map (fun pr => (none, pr.1, pr.2))
  | .optc p, prev, s =>
    (match s with
     | c :: cs => if p c then [(none, some c, cs)] else []
     | [] => []) ++ [(none, prev, s)]
  | .optR r, prev, s => mrun r prev s ++ [(none, prev, s)]
  | .seq a b, prev, s =>
    (mrun a prev s).flatMap (fun st =>
      (mrun b st.2.1 st.2.2).map (fun st2 => (st.1.orElse (fun _ => st2.1), st2.2)))
  | .alt a b, prev, s => mrun a prev s ++ mrun b prev s
  | .grp r, prev, s =>
    (mrun r prev s).map (fun st => (some (s.take (s.length - st.2.2.length)), st.2))
  | .wb, prev, s =>
    if wordOpt prev ≠ wordOpt s.head? then [(none, prev, s)] else []

/-- Bounded greedy repetition `{lo,hi}` of a character class (used by the
date patterns).  Encoded via the engine's primitives. -/
def reps (p : Char → Bool) : Nat → Nat → RE
  | 0, 0 => .lit [] false
  | 0, h + 1 => .seq (.optc p) (reps p 0 h)
  | l + 1, h + 1 => .seq (.cls p) (reps p l h)
  | _ + 1, 0 => .lit [] false

/-- `re.search`: scan start positions left to right; report the first
position where the pattern matches, with the capture and the match length. -/
def reSearchAux (r : RE) : Option Char → Nat → List Char → Option (Nat × Option (List Char) × Nat)
  | prev, idx, s =>
    match (mrun r prev s).head? with
    | some st => some (idx, st.1, s.length - st.2.2.length)
    | none =>
      match s with
      | [] => none
      | c :: cs => reSearchAux r (some c) (idx + 1) cs

def reSearch (r : RE) (s : List Char) : Option (Nat × Option (List Char) × Nat) :=
  reSearchAux r none 0 s

def reSearchCap (r : RE) (s : List Char) : Option (List Char) :=
  (reSearch r s).bind (fun t => t.2.1)

def reTest (r : RE) (s : List Char) : Bool :=
  (reSearch r s).isSome

/-- Anchored match at position 0 (for the `^`-anchored sender pattern). -/
def reMatchAt0Cap (r : RE) (s : List Char) : Option (List Char) :=
  (mrun r none s).head?.bind (fun st => st.1)

/- Shorthands for building patterns. -/

def reStr (s : String) : RE := .lit s.data false
def reStrCI (s : String) : RE := .lit s.data true
def seqL : List RE → RE
  | [] => .lit [] false
  | [r] => r
  | r :: rs => .seq r (seqL rs)
def altL : List RE → RE
  | [] => .lit [] false
  | [r] => r
  | r :: rs => .alt r (altL rs)
def wsPlus : RE := .plus isWsChar
def wsStar : RE := .star isWsChar
def isDigitChar (c : Char) : Bool := '0' ≤ c ∧ c ≤ '9'
def isUpperChar (c : Char) : Bool := 'A' ≤ c ∧ c ≤ 'Z'
def dotAny (c : Char) : Bool := ¬ (c = '\n')

/- ===================== static catalogues =====================

Transcribed verbatim from `app/parser.py` (same order — the order is
load-bearing: first match wins). -/

def TECH_JOB_TITLES : List String :=
  ["Software Engineer", "Software Developer", "Frontend Engineer",
   "Frontend Developer", "Backend Engineer", "Backend Developer",
   "Full Stack Engineer", "Full Stack Developer", "Mobile Engineer",
   "Mobile Developer", "iOS Developer", "iOS Engineer", "Android Developer",
   "Android Engineer", "DevOps Engineer", "Site Reliability Engineer", "SRE",
   "Platform Engineer", "Infrastructure Engineer", "Cloud Engineer",
   "Systems Engineer", "Embedded Engineer", "Firmware Engineer",
   "Security Engineer", "Machine Learning Engineer", "ML Engineer",
   "AI Engineer", "Data Engineer", "QA Engineer", "Test Engineer", "SDET",
   "Solutions Engineer", "Sales Engineer", "Support Engineer",
   "Application Engineer", "Research Engineer", "Robotics Engineer",
   "Hardware Engineer", "Network Engineer", "Data Scientist",
   "Research Scientist", "Applied Scientist", "Machine Learning Scientist",
   "Data Analyst", "Business Analyst", "Product Analyst",
   "Quantitative Analyst", "Business Intelligence Analyst", "Product Manager",
   "Technical Product Manager", "Product Designer", "UX Designer",
   "UI Designer", "UX Researcher", "Graphic Designer", "Engineering Manager",
   "Technical Program Manager", "Program Manager", "Project Manager",
   "Scrum Master", "Tech Lead", "Team Lead", "Director of Engineering",
   "VP of Engineering", "CTO", "Technical Writer", "Developer Advocate",
   "Developer Relations", "IT Specialist", "System Administrator",
   "Database Administrator", "DBA", "Consultant", "Architect",
   "Solutions Architect", "Software Architect", "Enterprise Architect"]

def JOB_LEVELS : List String :=
  ["Intern", "Internship", "Co-op", "Coop", "Junior", "Associate",
   "Entry Level", "Mid-Level", "Senior", "Staff", "Principal", "Lead",
   "Manager", "Director", "VP", "Head of", "Chief", "I", "II", "III", "IV",
   "V", "1", "2", "3", "4", "5"]

def SPECIALIZATIONS : List String :=
  ["Frontend", "Backend", "Full Stack", "Fullstack", "Mobile", "iOS",
   "Android", "Web", "Cloud", "Infrastructure", "Platform", "Data", "ML",
   "AI", "Machine Learning", "Deep Learning", "NLP", "Computer Vision",
   "Security", "DevOps", "SRE", "QA", "Test", "Automation", "Embedded",
   "Firmware", "Robotics", "Game", "Graphics", "Systems",
   "Distributed Systems", "Database", "Analytics", "Growth", "Payments",
   "Fintech"]

def REJECTION_INDICATORS : List String :=
  ["won't be moving forward", "will not be moving forward",
   "not be moving forward", "not moving forward", "decided not to proceed",
   "decided to move forward with other candidates",
   "moving forward with other candidates", "pursuing other candidates",
   "not be pursuing your", "unfortunately we have decided",
   "unfortunately, we have decided", "regret to inform", "not selected",
   "were not selected", "was not selected", "have not been selected",
   "has not been selected", "position has been filled",
   "role has been filled", "no longer considering", "will not be proceeding",
   "unable to offer you", "not able to offer you", "cannot offer you",
   "decided to pursue other", "chosen to pursue other",
   "after careful consideration", "not the right fit", "not a good fit",
   "wish you the best", "wish you every success", "good luck in your",
   "best of luck in your"]

def INCOMPLETE_INDICATORS : List String :=
  ["incomplete", "not complete", "not yet complete", "finish your application",
   "complete your application", "resume your application",
   "continue your application", "started your application",
   "starting your application", "thanks for starting",
   "thank you for starting", "begin your application",
   "began your application", "application in progress",
   "application is pending", "draft application", "saved application",
   "unfinished application"]

/- ===================== classifier ===================== -/

/-- `is_rejection_email` (lines 466-472): any rejection phrase is a
substring of the lower-cased `text + " " + subject`. -/
def is_rejection_email (text subject : String) : Bool :=
  REJECTION_INDICATORS.any
    (fun p => containsSub p.data (strLower (text ++ " " ++ subject)).data)

/-- `is_incomplete_application` (lines 475-481). -/
def is_incomplete_application (text subject : String) : Bool :=
  INCOMPLETE_INDICATORS.any
    (fun p => containsSub p.data (strLower (text ++ " " ++ subject)).data)

/- ===================== match_job_title ===================== -/

/-- Pattern `\b{title}\b` with `re.IGNORECASE`. -/
def titleRE (t : String) : RE :=
  seqL [.wb, reStrCI t, .wb]

/-- Pattern `\b({level})\s+{title}\b` with `re.IGNORECASE` (the capture is
unused by the source). -/
def levelPrefixRE (lv t : String) : RE :=
  seqL [.wb, .grp (reStrCI lv), wsPlus, reStrCI t, .wb]

/-- Pattern `\b{level}\s+{spec}\s+(Engineer|Developer|Scientist|Analyst|Designer|Manager)\b`
with `re.IGNORECASE`. -/
def compoundRE (lv sp : String) : RE :=
  seqL [.wb, reStrCI lv, wsPlus, reStrCI sp, wsPlus,
        .grp (altL [reStrCI "Engineer", reStrCI "Developer", reStrCI "Scientist",
                    reStrCI "Analyst", reStrCI "Designer", reStrCI "Manager"]),
        .wb]

def findFirstTitle : List String → List Char → Option (String × Nat × Nat)
  | [], _ => none
  | t :: ts, l =>
    match reSearch (titleRE t) l with
    | some (st, _, len) => some (t, st, st + len)
    | none => findFirstTitle ts l

def findFirstPrefix (mk : String → RE) : List String → List Char → Option String
  | [], _ => none
  | w :: ws, ctx => if reTest (mk w) ctx then some w else findFirstPrefix mk ws ctx

def findCompound : List String → List String → List Char → Option String
  | [], _, _ => none
  | lv :: lvs, sps, l =>
    match findCompoundSpec lv sps l with
    | some r => some r
    | none => findCompound lvs sps l
where
  findCompoundSpec (lv : String) : List String → List Char → Option String
    | [], _ => none
    | sp :: sps, l =>
      match reSearchCap (compoundRE lv sp) l with
      | some cap => some (lv ++ " " ++ sp ++ " " ++ String.mk cap)
      | none => findCompoundSpec lv sps l

/-- `match_job_title` (lines 250-289): first catalogue title matching
`\b{title}\b` wins; then a level or specialization prefix is looked for in a
window of 50 characters before / 20 after the title match; otherwise the
compound `level + spec + role` pattern is tried. -/
def match_job_title (text : String) : Option String :=
  let l := text.data
  match findFirstTitle TECH_JOB_TITLES l with
  | some (t, st, en) =>
    let ctxStart := st - 50
    let ctxEnd := min l.length (en + 20)
    let context := (l.drop ctxStart).take (ctxEnd - ctxStart)
    match findFirstPrefix (fun lv => levelPrefixRE lv t) JOB_LEVELS context with
    | some lv => some (lv ++ " " ++ t)
    | none =>
      match findFirstPrefix (fun sp => levelPrefixRE sp t) SPECIALIZATIONS context with
      | some sp => some (sp ++ " " ++ t)
      | none => some t
  | none => findCompound JOB_LEVELS SPECIALIZATIONS l

/- ===================== data model ===================== -/

/-- A Python `datetime.date`: year, month, day.  Validity (month 1..12, day
within the month, year 1..9999) is enforced where `datetime` would raise. -/
structure PDate where
  year : Nat
  month : Nat
  day : Nat
deriving DecidableEq, Repr

/-- The header map produced by `get_email_headers` (`app/gmail_client.py`):
only the `from`, `to`, `subject` and `date` headers, absent entries meaning
the header was missing.  The MIME walk and base64 decoding of the mail
client are external I/O and are abstracted into the already-decoded `body`
of `EmailMessage`. -/
structure Headers where
  hFrom : Option String
  hTo : Option String
  hSubject : Option String
  hDate : Option String
deriving DecidableEq, Repr

structure EmailMessage where
  id : String
  headers : Headers
  body : String
deriving DecidableEq, Repr

def get_email_headers (m : EmailMessage) : Headers := m.headers

def get_email_body (m : EmailMessage) : String := m.body

/-- `JobApplication` (`app/models.py`); `created_at` (wall clock, unused by
the parsing claims) is omitted.  Confidences are exact rationals. -/
structure JobApplication where
  company : String
  position : String
  date_applied : PDate
  source_email_id : String
  confidence : ℚ
  source : Option String
  notes : Option String
deriving DecidableEq, Repr

/- ===================== company extraction ===================== -/

/-- Character class `[A-Za-z0-9\s&.]` of the sender ATS patterns. -/
def cls1 (c : Char) : Bool := c.isAlphanum || isWsChar c || c = '&' || c = '.'

/-- Character class `[A-Za-z0-9\s&.'-]` of the body phrase patterns. -/
def cls2 (c : Char) : Bool :=
  c.isAlphanum || isWsChar c || c = '&' || c = '.' || c = '\'' || c = '-'

/-- Sender pattern `"([^"]+)" via .+` (re.IGNORECASE). -/
def s1p1 : RE :=
  seqL [.cls (· == '"'), .grp (.plus (fun c => ¬ (c = '"'))), reStrCI "\" via ",
        .plus dotAny]

/-- Sender pattern `([A-Za-z0-9\s&.]+)\s+{word}\s*<` with an optional plural
`s` (covers `Careers?` and `Jobs?`; `Recruiting`, `Talent`, `HR` use
`optS := false`). -/
def s1role (word : String) (optS : Bool) : RE :=
  seqL ([.grp (.plus cls1), wsPlus, reStrCI word] ++
        (if optS then [.optc (fun c => lowerC c = 's')] else []) ++
        [wsStar, .cls (· == '<')])

def ats_company_patterns : List RE :=
  [s1p1, s1role "Career" true, s1role "Recruiting" false, s1role "Talent" false,
   s1role "Job" true, s1role "HR" false]

/-- Terminator `(?:\.|,|!|\s+for|\s+and|\s+as)` of body pattern 1. -/
def term1 : RE :=
  altL [.cls (· == '.'), .cls (· == ','), .cls (· == '!'),
        .seq wsPlus (reStr "for"), .seq wsPlus (reStr "and"),
        .seq wsPlus (reStr "as")]

/-- Body pattern
`(?:applying|applied|application)\s+(?:to|at|for(?:\s+a\s+position\s+at)?)\s+([A-Z][A-Za-z0-9\s&.'-]+?)(?:\.|,|!|\s+for|\s+and|\s+as)`
(case-sensitive, like all of `company_patterns`). -/
def s2p1 : RE :=
  seqL [altL [reStr "applying", reStr "applied", reStr "application"], wsPlus,
        altL [reStr "to", reStr "at",
              .seq (reStr "for")
                (.optR (seqL [wsPlus, reStr "a", wsPlus, reStr "position",
                              wsPlus, reStr "at"]))],
        wsPlus, .grp (.seq (.cls isUpperChar) (.plusL cls2)), term1]

/-- Body pattern `interest\s+in\s+(?:joining\s+)?([A-Z][A-Za-z0-9\s&.'-]+?)(?:\.|,|!|\s+and)`. -/
def s2p2 : RE :=
  seqL [reStr "interest", wsPlus, reStr "in", wsPlus,
        .optR (.seq (reStr "joining") wsPlus),
        .grp (.seq (.cls isUpperChar) (.plusL cls2)),
        altL [.cls (· == '.'), .cls (· == ','), .cls (· == '!'),
              .seq wsPlus (reStr "and")]]

/-- Body pattern `Thank\s+you\s+for\s+applying\s+to\s+([A-Z][A-Za-z0-9\s&.'-]+)`
(greedy capture, no terminator). -/
def s2p3 : RE :=
  seqL [reStr "Thank", wsPlus, reStr "you", wsPlus, reStr "for", wsPlus,
        reStr "applying", wsPlus, reStr "to", wsPlus,
        .grp (.seq (.cls isUpperChar) (.plus cls2))]

/-- Body pattern `at\s+([A-Z][A-Za-z0-9\s&.'-]+?)\s+for\s+the`. -/
def s2p4 : RE :=
  seqL [reStr "at", wsPlus, .grp (.seq (.cls isUpperChar) (.plusL cls2)),
        wsPlus, reStr "for", wsPlus, reStr "the"]

/-- Body pattern `with\s+([A-Z][A-Za-z0-9\s&.'-]+?)\s+for\s+(?:the|our)`. -/
def s2p5 : RE :=
  seqL [reStr "with", wsPlus, .grp (.seq (.cls isUpperChar) (.plusL cls2)),
        wsPlus, reStr "for", wsPlus, altL [reStr "the", reStr "our"]]

def company_patterns : List RE := [s2p1, s2p2, s2p3, s2p4, s2p5]

/-- The stray generic words filtered from body phrase captures (line 327). -/
def genericWords2 : List String := ["the", "our", "a", "an", "this", "your"]

/-- Strategy 1 loop (lines 306-311): first pattern whose stripped capture has
length in 2..49 wins; a match failing the length check falls through to the
next pattern. -/
def tryPatterns1 : List RE → List Char → Option String
  | [], _ => none
  | p :: ps, s =>
    match reSearchCap p s with
    | some cap =>
      let c := pyStrip cap
      if 1 < c.length ∧ c.length < 50 then some (String.mk c)
      else tryPatterns1 ps s
    | none => tryPatterns1 ps s

/-- Strategy 2 loop (lines 322-329): like strategy 1 but additionally
rejecting captures whose lower-casing is a stray generic word. -/
def tryPatterns2 : List RE → List Char → Option String
  | [], _ => none
  | p :: ps, s =>
    match reSearchCap p s with
    | some cap =>
      let c := pyStrip cap
      if ¬ genericWords2.contains (String.mk (c.map lowerC)) ∧
          1 < c.length ∧ c.length < 50 then some (String.mk c)
      else tryPatterns2 ps s
    | none => tryPatterns2 ps s

def companyStrategy1 (sender : List Char) : Option String :=
  tryPatterns1 ats_company_patterns sender

def companyStrategy2 (text : List Char) : Option String :=
  tryPatterns2 company_patterns text

/- Strategy 3: display name before `<`, with `str.strip`, `strip('"')` and
the suffix sub `\s+(Careers?|Recruiting|Talent|Jobs?|HR|Team|via\s+.+)$`
(re.IGNORECASE). -/

def listPrefixCI : List Char → List Char → Bool
  | [], _ => true
  | _ :: _, [] => false
  | a :: as, b :: bs => lowerC a == lowerC b && listPrefixCI as bs

/-- `$` of the suffix pattern: end of string, or just before a final
newline.  Returns the part of the string the zero-width `$` leaves behind. -/
def dollarTail : List Char → Option (List Char)
  | [] => some []
  | ['\n'] => some ['\n']
  | _ => none

/-- Try one literal alternative `word` (optionally a plural `s`) followed by
`$`. -/
def suffixLit (word : String) (optS : Bool) (rest : List Char) : Option (List Char) :=
  if listPrefixCI word.data rest then
    let r1 := rest.drop word.length
    match (if optS then
            (match r1 with
             | c :: r2 => if lowerC c = 's' then dollarTail r2 else none
             | [] => none)
           else none) with
    | some keep => some keep
    | none => dollarTail r1
  else none

/-- The `via\s+.+$` alternative. -/
def suffixVia (rest : List Char) : Option (List Char) :=
  if listPrefixCI "via".data rest then
    let r := rest.drop 3
    if (r.takeWhile isWsChar).isEmpty then none
    else
      let body := r.dropWhile isWsChar
      let hasNl : Bool := body.getLast? = some '\n'
      let core := if hasNl then body.dropLast else body
      if ¬ core.isEmpty ∧ ¬ core.contains '\n' then
        some (if hasNl then ['\n'] else [])
      else none
  else none

def suffixAlt (rest : List Char) : Option (List Char) :=
  match suffixLit "Career" true rest with
  | some k => some k
  | none =>
  match suffixLit "Recruiting" false rest with
  | some k => some k
  | none =>
  match suffixLit "Talent" false rest with
  | some k => some k
  | none =>
  match suffixLit "Job" true rest with
  | some k => some k
  | none =>
  match suffixLit "HR" false rest with
  | some k => some k
  | none =>
  match suffixLit "Team" false rest with
  | some k => some k
  | none => suffixVia rest

/-- `re.sub(r'\s+(Careers?|Recruiting|Talent|Jobs?|HR|Team|via\s+.+)$', '', …)`:
remove the leftmost whitespace-prefixed role suffix reaching `$`. -/
def senderSuffixSub : List Char → List Char
  | [] => []
  | c :: cs =>
    if isWsChar c then
      match suffixAlt ((c :: cs).dropWhile isWsChar) with
      | some keep => keep
      | none => c :: senderSuffixSub cs
    else c :: senderSuffixSub cs

def strategy3Generic : List String :=
  ["jobs", "careers", "recruiting", "hr", "talent", "no-reply", "noreply",
   "notifications"]

def companyStrategy3 (sender : List Char) : Option String :=
  match reMatchAt0Cap (seqL [.grp (.plus (fun c => ¬ (c = '<'))), .cls (· == '<')]) sender with
  | some cap =>
    let sn := senderSuffixSub (pyStripQuotes (pyStrip cap))
    if ¬ sn.isEmpty ∧ 1 < sn.length ∧
        ¬ strategy3Generic.contains (String.mk (sn.map lowerC)) then
      some (String.mk sn)
    else none
  | none => none

/- Strategy 4: first label of the sender's domain. -/

def domCls (c : Char) : Bool := c.isAlphanum || c = '.' || c = '-'

def domainRE : RE := seqL [.cls (· == '@'), .grp (.plus domCls)]

def strategy4Generic : List String :=
  ["mail", "email", "jobs", "careers", "notifications", "noreply",
   "no-reply", "talent"]

/-- Python `str.title` (ASCII model): upper-case every alphabetic character
that does not follow an alphabetic character, lower-case the others. -/
def pyTitleAux : Bool → List Char → List Char
  | _, [] => []
  | prevAlpha, c :: cs =>
    if c.isAlpha then (if prevAlpha then lowerC c else upperC c) :: pyTitleAux true cs
    else c :: pyTitleAux false cs

def pyTitle (l : List Char) : List Char := pyTitleAux false l

def companyStrategy4 (sender : List Char) : Option String :=
  match reSearchCap domainRE sender with
  | some domain =>
    let parts := domain.splitOn '.'
    if 2 ≤ parts.length then
      match parts.head? with
      | some p0 =>
        if ¬ strategy4Generic.contains (String.mk p0) then
          some (String.mk (pyTitle (p0.map (fun c => if c = '-' then ' ' else c))))
        else none
      | none => none
    else none
  | none => none

/-- `extract_company_from_email` (lines 292-352): four strategies tried in
order, first `return` wins.  Note the phrase patterns of strategy 2 are
searched in `text` (the normalized body) only. -/
def extract_company_from_email (text : String) (headers : Headers) : Option String :=
  let sender := (headers.hFrom.getD "").data
  match companyStrategy1 sender with
  | some c => some c
  | none =>
  match companyStrategy2 text.data with
  | some c => some c
  | none =>
  match companyStrategy3 sender with
  | some c => some c
  | none => companyStrategy4 sender

/-- `extract_source` (lines 457-463): the sender's `@`-domain, verbatim. -/
def extract_source (headers : Headers) : Option String :=
  (reSearchCap domainRE ((headers.hFrom.getD "").data)).map String.mk

/- ===================== rational arithmetic =====================

The source's confidence tiers are small decimal floats; they are modelled
as exact rationals.  Mathlib's `Rat.add`/`Rat.mul` are `@[irreducible]`,
which blocks kernel evaluation of concrete runs, so the pipeline is written
with numerator/denominator arithmetic over `Rat.divInt`; the `…_eq` bridge
lemmas below identify these operations with the ordinary field operations
for the symbolic theorems. -/

/-- The rational `n / d` in kernel-evaluable form. -/
def qr (n d : ℤ) : ℚ := Rat.divInt n d

/-- Kernel-evaluable rational addition. -/
def qAdd (a b : ℚ) : ℚ :=
  Rat.divInt (a.num * b.den + b.num * a.den) (a.den * b.den)

/-- Kernel-evaluable division by 3. -/
def qDiv3 (a : ℚ) : ℚ := Rat.divInt a.num (a.den * 3)

theorem qr_eq (n d : ℤ) : qr n d = (n : ℚ) / d := Rat.divInt_eq_div n d

theorem qAdd_eq (a b : ℚ) : qAdd a b = a + b := by
  have ha : (a.den : ℚ) ≠ 0 := by exact_mod_cast a.den_pos.ne'
  have hb : (b.den : ℚ) ≠ 0 := by exact_mod_cast b.den_pos.ne'
  rw [qAdd, Rat.divInt_eq_div]
  push_cast
  conv_rhs => rw [← Rat.num_div_den a, ← Rat.num_div_den b]
  rw [div_add_div _ _ ha hb]
  ring_nf

theorem qDiv3_eq (a : ℚ) : qDiv3 a = a / 3 := by
  have ha : (a.den : ℚ) ≠ 0 := by exact_mod_cast a.den_pos.ne'
  rw [qDiv3, Rat.divInt_eq_div]
  push_cast
  conv_rhs => rw [← Rat.num_div_den a]
  rw [div_div]

theorem ratFloor_eq (a : ℚ) : a.floor = ⌊a⌋ := (Rat.floor_def' a).trans Rat.floor_def.symm

/-- Python's `round(q, 2)`.  Modelled as rounding `100 q` half-up to an
integer number of hundredths (`pyRound2_eq`): for every value the pipeline
produces, `100 q` is `10 k / 3` for an integer `k`, which is never exactly
half-way between two integers, so Python's binary-float ties-to-even and
this rational rounding agree. -/
def pyRound2 (q : ℚ) : ℚ :=
  Rat.divInt (qAdd (Rat.divInt (100 * q.num) q.den) (qr 1 2)).floor 100

theorem pyRound2_eq (q : ℚ) : pyRound2 q = (⌊100 * q + 1/2⌋ : ℚ) / 100 := by
  rw [pyRound2, Rat.divInt_eq_div, ratFloor_eq, qAdd_eq, qr_eq, Rat.divInt_eq_div]
  have h : ((100 * q.num : ℤ) : ℚ) / (((q.den : ℤ)) : ℚ) = 100 * q := by
    push_cast
    rw [mul_div_assoc, Rat.num_div_den]
  rw [h]
  norm_num

/-- `round(q, 2)` stays in `[0, 1]` when `q` does. -/
theorem pyRound2_bounds (q : ℚ) (h0 : 0 ≤ q) (h1 : q ≤ 1) :
    0 ≤ pyRound2 q ∧ pyRound2 q ≤ 1 := by
  rw [pyRound2_eq]
  have hf0 : (0 : ℤ) ≤ ⌊100 * q + 1/2⌋ := by
    rw [Int.le_floor]
    push_cast
    nlinarith
  have hf1 : ⌊100 * q + 1/2⌋ ≤ 100 := by
    have : ⌊100 * q + 1/2⌋ < 101 := by
      rw [Int.floor_lt]
      push_cast
      nlinarith
    omega
  constructor
  · apply div_nonneg _ (by norm_num : (0:ℚ) ≤ 100)
    exact_mod_cast hf0
  · rw [div_le_one (by norm_num : (0:ℚ) < 100)]
    exact_mod_cast hf1

/- ===================== date extraction =====================

The three search patterns of `extract_date` (lines 428-432) and a model of
`datetime.strptime` for the seven formats of line 438.  CPython's
`_strptime` compiles each directive to a range-checked regex
(`%m` = `1[0-2]|0[1-9]|[1-9]`, `%d` = `3[01]|[12]\d|0[1-9]|[1-9]`,
`%Y` = `\d\d\d\d`, `%B`/`%b` = case-insensitive month names, whitespace in
the format = `\s+`), requires the whole string to be consumed, and the
`datetime` constructor then rejects calendar-invalid dates. -/

def slashDash (c : Char) : Bool := c = '/' || c = '-'
def lowerAlpha (c : Char) : Bool := 'a' ≤ c ∧ c ≤ 'z'

/-- Pattern 1: one or two digits, a slash or dash, one or two digits, a
slash or dash, then two to four digits — all captured. -/
def dp1 : RE :=
  .grp (seqL [reps isDigitChar 1 2, .cls slashDash, reps isDigitChar 1 2,
              .cls slashDash, reps isDigitChar 2 4])

/-- `((?:Jan|Feb|Mar|Apr|May|Jun|Jul|Aug|Sep|Oct|Nov|Dec)[a-z]*\.?\s+\d{1,2},?\s+\d{4})`. -/
def dp2 : RE :=
  .grp (seqL [altL [reStr "Jan", reStr "Feb", reStr "Mar", reStr "Apr",
                    reStr "May", reStr "Jun", reStr "Jul", reStr "Aug",
                    reStr "Sep", reStr "Oct", reStr "Nov", reStr "Dec"],
              .star lowerAlpha, .optc (· = '.'), wsPlus,
              reps isDigitChar 1 2, .optc (· = ','), wsPlus,
              reps isDigitChar 4 4])

/-- `(\d{4}-\d{2}-\d{2})`. -/
def dp3 : RE :=
  .grp (seqL [reps isDigitChar 4 4, .cls (· = '-'), reps isDigitChar 2 2,
              .cls (· = '-'), reps isDigitChar 2 2])

def date_patterns : List RE := [dp1, dp2, dp3]

inductive FmtTok where
  | pm | pd | pY | pB | pb | ws | lit (c : Char)

inductive TokVal where
  | vy (n : Nat) | vm (n : Nat) | vd (n : Nat) | vnone

def digitNat (c : Char) : Nat := c.toNat - '0'.toNat

/-- Alternatives of `%m` in CPython priority order: `1[0-2]|0[1-9]|[1-9]`. -/
def pmAlts : List Char → List (TokVal × List Char)
  | c1 :: c2 :: rest =>
    (if c1 = '1' ∧ '0' ≤ c2 ∧ c2 ≤ '2' then [(.vm (10 + digitNat c2), rest)] else []) ++
    (if c1 = '0' ∧ '1' ≤ c2 ∧ c2 ≤ '9' then [(.vm (digitNat c2), rest)] else []) ++
    (if '1' ≤ c1 ∧ c1 ≤ '9' then [(.vm (digitNat c1), c2 :: rest)] else [])
  | [c1] => if '1' ≤ c1 ∧ c1 ≤ '9' then [(.vm (digitNat c1), [])] else []
  | [] => []

/-- Alternatives of `%d`: `3[01]|[12]\d|0[1-9]|[1-9]`. -/
def pdAlts : List Char → List (TokVal × List Char)
  | c1 :: c2 :: rest =>
    (if c1 = '3' ∧ (c2 = '0' ∨ c2 = '1') then [(.vd (30 + digitNat c2), rest)] else []) ++
    (if (c1 = '1' ∨ c1 = '2') ∧ isDigitChar c2 then
      [(.vd (10 * digitNat c1 + digitNat c2), rest)] else []) ++
    (if c1 = '0' ∧ '1' ≤ c2 ∧ c2 ≤ '9' then [(.vd (digitNat c2), rest)] else []) ++
    (if '1' ≤ c1 ∧ c1 ≤ '9' then [(.vd (digitNat c1), c2 :: rest)] else [])
  | [c1] => if '1' ≤ c1 ∧ c1 ≤ '9' then [(.vd (digitNat c1), [])] else []
  | [] => []

/-- `%Y`: exactly four digits. -/
def pYAlts : List Char → List (TokVal × List Char)
  | a :: b :: c :: d :: rest =>
    if isDigitChar a ∧ isDigitChar b ∧ isDigitChar c ∧ isDigitChar d then
      [(.vy (digitNat a * 1000 + digitNat b * 100 + digitNat c * 10 + digitNat d), rest)]
    else []
  | _ => []

def monthNamesFull : List (Nat × String) :=
  [(1, "January"), (2, "February"), (3, "March"), (4, "April"), (5, "May"),
   (6, "June"), (7, "July"), (8, "August"), (9, "September"), (10, "October"),
   (11, "November"), (12, "December")]

def monthNamesAbbr : List (Nat × String) :=
  [(1, "Jan"), (2, "Feb"), (3, "Mar"), (4, "Apr"), (5, "May"), (6, "Jun"),
   (7, "Jul"), (8, "Aug"), (9, "Sep"), (10, "Oct"), (11, "Nov"), (12, "Dec")]

def monthAlts (names : List (Nat × String)) (s : List Char) : List (TokVal × List Char) :=
  names.filterMap (fun p =>
    if listPrefixCI p.2.data s then some (.vm p.1, s.drop p.2.length) else none)

def tokAlts : FmtTok → List Char → List (TokVal × List Char)
  | .pm, s => pmAlts s
  | .pd, s => pdAlts s
  | .pY, s => pYAlts s
  | .pB, s => monthAlts monthNamesFull s
  | .pb, s => monthAlts monthNamesAbbr s
  | .ws, s =>
    match s with
    | c :: _ => if isWsChar c then [(.vnone, s.dropWhile isWsChar)] else []
    | [] => []
  | .lit c, s =>
    match s with
    | c1 :: rest => if c1 = c then [(.vnone, rest)] else []
    | [] => []

def firstSome : List α → (α → Option β) → Option β
  | [], _ => none
  | a :: as, f =>
    match f a with
    | some b => some b
    | none => firstSome as f

/-- Run a format's directives over the string with backtracking; the whole
string must be consumed. -/
def runToks : List FmtTok → Nat → Nat → Nat → List Char → Option (Nat × Nat × Nat)
  | [], y, m, d, s => if s.isEmpty then some (y, m, d) else none
  | t :: ts, y, m, d, s =>
    firstSome (tokAlts t s) (fun pr =>
      match pr.1 with
      | .vy n => runToks ts n m d pr.2
      | .vm n => runToks ts y n d pr.2
      | .vd n => runToks ts y m n pr.2
      | .vnone => runToks ts y m d pr.2)

def isLeapYear (y : Nat) : Bool := (y % 4 == 0 && y % 100 != 0) || y % 400 == 0

def daysInMonth (y m : Nat) : Nat :=
  if m = 2 then (if isLeapYear y then 29 else 28)
  else if m = 4 ∨ m = 6 ∨ m = 9 ∨ m = 11 then 30
  else 31

def validYMD (y m d : Nat) : Bool :=
  1 ≤ y ∧ y ≤ 9999 ∧ 1 ≤ m ∧ m ≤ 12 ∧ 1 ≤ d ∧ d ≤ daysInMonth y m

def strptimeFmt (toks : List FmtTok) (s : List Char) : Option PDate :=
  (runToks toks 1900 1 1 s).bind (fun t =>
    if validYMD t.1 t.2.1 t.2.2 then some ⟨t.1, t.2.1, t.2.2⟩ else none)

/-- The format list of line 438, in order:
`%m/%d/%Y, %m-%d-%Y, %Y-%m-%d, %B %d, %Y, %b %d, %Y, %B %d %Y, %b %d %Y`. -/
def dateFormats : List (List FmtTok) :=
  [[.pm, .lit '/', .pd, .lit '/', .pY],
   [.pm, .lit '-', .pd, .lit '-', .pY],
   [.pY, .lit '-', .pm, .lit '-', .pd],
   [.pB, .ws, .pd, .lit ',', .ws, .pY],
   [.pb, .ws, .pd, .lit ',', .ws, .pY],
   [.pB, .ws, .pd, .ws, .pY],
   [.pb, .ws, .pd, .ws, .pY]]

def tryDateFormats (cap : List Char) : Option PDate :=
  firstSome dateFormats (fun f => strptimeFmt f cap)

/-- The pattern loop of `extract_date`: the first pattern that matches is
parsed against the format list; if no format parses its capture, the next
pattern is tried. -/
def textDateSearch : List RE → List Char → Option PDate
  | [], _ => none
  | p :: ps, t =>
    match reSearchCap p t with
    | some cap =>
      match tryDateFormats cap with
      | some d => some d
      | none => textDateSearch ps t
    | none => textDateSearch ps t

/-- `extract_date` (lines 426-454).  `hp` models the standard library's
`parsedate_to_datetime` on the `date` header (exceptions mapped to `none`);
`today` models `date.today()`. -/
def extract_date (hp : String → Option PDate) (today : PDate)
    (text : String) (headers : Headers) : PDate × ℚ :=
  match textDateSearch date_patterns text.data with
  | some d => (d, qr 4 5)
  | none =>
    let email_date := headers.hDate.getD ""
    if email_date ≠ "" then
      match hp email_date with
      | some d => (d, qr 3 5)
      | none => (today, qr 3 10)
    else (today, qr 3 10)

/- ===================== LLM extraction stage =====================

`extract_with_llm` (lines 355-423).  The environment (API key) and the
remote HTTP exchange are external; they enter the model as an optional key
and an `LLMOutcome`.  The decoded JSON value is `LLMJson`; object field
values are restricted to string-or-null, the shapes the prompt contracts
for.  Python's `None` (returned on every caught failure, and equal to a
decoded JSON `null`) is `jnull`. -/

inductive LLMJson where
  | jnull
  | jstr (s : String)
  | jobj (fields : List (String × Option String))
  | jarr (xs : List LLMJson)

/-- Python truthiness of a decoded JSON value. -/
def truthyJson : LLMJson → Bool
  | .jnull => false
  | .jstr s => !s.isEmpty
  | .jobj fields => !fields.isEmpty
  | .jarr xs => !xs.isEmpty

/-- Outcomes of the guarded section of `extract_with_llm`: the
`requests.RequestException` family (network errors, the 10s timeout, and the
non-2xx `HTTPError` from `raise_for_status`), a `json.JSONDecodeError` from
parsing the completion, any other exception in the broad handler, or a
successfully decoded JSON value. -/
inductive LLMOutcome where
  | networkError
  | timeoutError
  | httpError (status : Nat)
  | jsonDecodeError
  | otherError
  | response (data : LLMJson)

/-- `extract_with_llm`: absent key → skip (None); every caught failure →
None; a nonempty JSON array → its first element; otherwise the decoded
value.  The prompt built from `text`/`subject`/`sender` only affects the
remote exchange, which the outcome already summarises. -/
def extract_with_llm (_text _subject _sender : String)
    (apiKey : Option String) (outcome : LLMOutcome) : LLMJson :=
  match apiKey with
  | none => .jnull
  | some _ =>
    match outcome with
    | .networkError => .jnull
    | .timeoutError => .jnull
    | .httpError _ => .jnull
    | .jsonDecodeError => .jnull
    | .otherError => .jnull
    | .response data =>
      match data with
      | .jarr (x :: _) => x
      | d => d

/- ===================== field merger ===================== -/

/-- Python truthiness of an optional string. -/
def truthyOptStr : Option String → Bool
  | some s => !s.isEmpty
  | none => false

/-- `dict.get` on a decoded JSON object (JSON duplicate keys resolve to the
last occurrence, as in `json.loads`). -/
def dictGet (fields : List (String × Option String)) (key : String) :
    Option (Option String) :=
  (fields.reverse.find? (fun p => p.1 == key)).map (fun p => p.2)

/-- Lines 520-526 for one field: assign the LLM value at confidence 0.9
only when it is truthy. -/
def llmPick (fields : List (String × Option String)) (key : String) :
    Option String × ℚ :=
  match dictGet fields key with
  | some (some s) => if s.isEmpty then (none, 0) else (some s, qr 9 10)
  | _ => (none, 0)

/-- Lines 529-534 for one field: `if not value and regex_value:` — fall back
to the regex result (with its tier confidence) only when the current value
is falsy and the regex result truthy. -/
def regexFallback (cur : Option String × ℚ) (rv : Option String) (conf : ℚ) :
    Option String × ℚ :=
  if ¬ truthyOptStr cur.1 ∧ truthyOptStr rv then (rv, conf) else cur

/-- Lines 514-534: the LLM-then-regex merge for company and position.
`llm_result.get(...)` on a truthy non-dict value raises `AttributeError`
(the source annotates `extract_with_llm` as returning `Optional[dict]`, but
`json.loads` can produce any JSON value). -/
def mergeFields (llm_result : LLMJson) (regex_company regex_position : Option String) :
    Except String ((Option String × ℚ) × (Option String × ℚ)) :=
  let llmStep : Except String ((Option String × ℚ) × (Option String × ℚ)) :=
    if truthyJson llm_result then
      match llm_result with
      | .jobj fields => .ok (llmPick fields "company", llmPick fields "position")
      | _ => .error "AttributeError"
    else .ok ((none, 0), (none, 0))
  match llmStep with
  | .error e => .error e
  | .ok (cp, pp) =>
    .ok (regexFallback cp regex_company (qr 7 10), regexFallback pp regex_position (qr 4 5))

/- ===================== orchestrator ===================== -/

/-- Python's `x or y` on optional strings. -/
def pyOr (a b : Option String) : Option String :=
  if truthyOptStr a then a else b

/-- `str.__getitem__` slice `[:n]`. -/
def strTake (n : Nat) (s : String) : String := String.mk (s.data.take n)

/-- Lines 514-557 of `parse_email`, after the classification gates and the
extraction calls: merge, mandatory-company check, `"N/A"` position default,
confidence aggregation and record construction. -/
def parse_core (msgid subject : String) (llm_result : LLMJson)
    (regex_company regex_position : Option String) (dres : PDate × ℚ)
    (source : Option String) : Except String (Option JobApplication) :=
  match mergeFields llm_result regex_company regex_position with
  | .error e => .error e
  | .ok (cp, pp) =>
    match cp.1 with
    | none => .ok none
    | some company =>
      let posPair : String × ℚ :=
        match pp.1 with
        | none => ("N/A", qr 1 2)
        | some p => (p, pp.2)
      let overall : ℚ := qDiv3 (qAdd (qAdd cp.2 posPair.2) dres.2)
      .ok (some
        { company := company
          position := posPair.1
          date_applied := dres.1
          source_email_id := msgid
          confidence := pyRound2 overall
          source := source
          notes := if subject.isEmpty then none
                   else some ("Subject: " ++ strTake 100 subject) })

/-- `parse_email` (lines 484-557).  Stateful collaborators enter as
parameters: `apiKey`/`outcome` feed the LLM stage, `hp` models
`parsedate_to_datetime`, `today` models `date.today()`.  The result is
`Except`: `.error` models an uncaught Python exception escaping the
orchestrator, `.ok none` models `return None`. -/
def parse_email (apiKey : Option String) (outcome : LLMOutcome)
    (hp : String → Option PDate) (today : PDate) (msg : EmailMessage) :
    Except String (Option JobApplication) :=
  let headers := get_email_headers msg
  let body := get_email_body msg
  let text := strip_html body
  let subject := headers.hSubject.getD ""
  let sender := headers.hFrom.getD ""
  if is_rejection_email text subject then .ok none
  else if is_incomplete_application text subject then .ok none
  else
    parse_core msg.id subject
      (extract_with_llm text subject sender apiKey outcome)
      (extract_company_from_email text headers)
      (pyOr (match_job_title text) (match_job_title subject))
      (extract_date hp today text headers)
      (extract_source headers)

instance {ε α : Type} [DecidableEq ε] [DecidableEq α] : DecidableEq (Except ε α) := fun a b =>
  match a, b with
  | .error e, .error f =>
    if h : e = f then isTrue (congrArg Except.error h)
    else isFalse (fun hh => h (Except.error.inj hh))
  | .ok x, .ok y =>
    if h : x = y then isTrue (congrArg Except.ok h)
    else isFalse (fun hh => h (Except.ok.inj hh))
  | .error _, .ok _ => isFalse (fun hh => Except.noConfusion hh)
  | .ok _, .error _ => isFalse (fun hh => Except.noConfusion hh)

/- ===================== normalizer lemmas (for C6) ===================== -/

/-- The whitespace-collapsing pass leaves no newline in its output: every
emitted character is either the replacement space or a character on which
the `\s+` matcher failed, hence not whitespace. -/
theorem wsCollapse_no_nl (fuel : Nat) :
    ∀ s : List Char, '\n' ∉ pySubGoF (constRepl [' '] mWsRun) fuel s := by
  induction fuel with
  | zero =>
    intro s
    cases s <;> simp [pySubGoF]
  | succ n ih =>
    intro s
    cases s with
    | nil => simp [pySubGoF]
    | cons c cs =>
      by_cases hws : isWsChar c
      · have hstep : pySubGoF (constRepl [' '] mWsRun) (n + 1) (c :: cs) =
            ' ' :: pySubGoF (constRepl [' '] mWsRun) n (cs.dropWhile isWsChar) := by
          simp [pySubGoF, constRepl, mWsRun, hws]
        rw [hstep]
        intro hmem
        rcases List.mem_cons.1 hmem with h | h
        · exact absurd h (by decide)
        · exact ih _ h
      · have hne : ¬ c = '\n' := fun hc => hws (by rw [hc]; decide)
        have hstep : pySubGoF (constRepl [' '] mWsRun) (n + 1) (c :: cs) =
            c :: pySubGoF (constRepl [' '] mWsRun) n cs := by
          simp [pySubGoF, constRepl, mWsRun, hws]
        rw [hstep]
        intro hmem
        rcases List.mem_cons.1 hmem with h | h
        · exact hne h.symm
        · exact ih _ h

theorem mNlPair_none {c : Char} (cs : List Char) (h : ¬ c = '\n') :
    mNlPair (c :: cs) = none := by
  unfold mNlPair
  split
  · next heq =>
    injection heq with h1 _
    exact absurd h1 h
  · rfl

/-- On newline-free input the source's `\n\s*\n` pass is the identity. -/
theorem nlCollapse_id : ∀ (s : List Char) (fuel : Nat), (∀ c ∈ s, ¬ c = '\n') →
    s.length ≤ fuel → pySubGoF (constRepl ("\n\n".data) mNlPair) fuel s = s := by
  intro s
  induction s with
  | nil =>
    intro fuel _ _
    cases fuel <;> rfl
  | cons c cs ih =>
    intro fuel h hlen
    match fuel, hlen with
    | n + 1, hlen =>
      have hc : ¬ c = '\n' := h c (by simp)
      have hm : constRepl ("\n\n".data) mNlPair (c :: cs) = none := by
        simp [constRepl, mNlPair_none cs hc]
      have hstep : pySubGoF (constRepl ("\n\n".data) mNlPair) (n + 1) (c :: cs) =
          c :: pySubGoF (constRepl ("\n\n".data) mNlPair) n cs := by
        simp [pySubGoF, hm]
      rw [hstep, ih n (fun x hx => h x (by simp [hx])) (by simpa using hlen)]

/-- On newline-free input the spec's collapse-3+-newlines pass is the
identity. -/
theorem spec3NlAux_id : ∀ s : List Char, (∀ c ∈ s, ¬ c = '\n') →
    spec3NlAux 0 s = s := by
  intro s
  induction s with
  | nil => intro _; rfl
  | cons c cs ih =>
    intro h
    have hc : ¬ c = '\n' := h c (by simp)
    have : spec3NlAux 0 (c :: cs) = spec3NlRun 0 ++ c :: spec3NlAux 0 cs := by
      simp [spec3NlAux, hc]
    rw [this, ih (fun x hx => h x (by simp [hx]))]
    rfl

/-- Claim C6: the text normalizer performs, in order, the tag-to-newline and
tag-stripping substitutions, entity decoding, whitespace collapsing, the
newline-collapsing step and a final trim — as the spec words it (with the
newline step described as collapsing 3+ newlines to two, which agrees with
the source because the preceding whitespace collapse already removes every
newline); it is a total function and the empty string maps to itself. -/
theorem c6_strip_html_normalizer :
    strip_html "" = "" ∧ ∀ s : String, strip_html s = specNormalize s := by
  constructor
  · decide
  · intro s
    have key : ∀ t : List Char,
        pySubGo (constRepl ("\n\n".data) mNlPair) (pySubGo (constRepl [' '] mWsRun) t) =
        spec3NlAux 0 (pySubGo (constRepl [' '] mWsRun) t) := by
      intro t
      have hW : ∀ c ∈ pySubGo (constRepl [' '] mWsRun) t, ¬ c = '\n' := by
        intro c hc hceq
        subst hceq
        exact wsCollapse_no_nl _ _ hc
      have h1 : pySubGo (constRepl ("\n\n".data) mNlPair)
          (pySubGo (constRepl [' '] mWsRun) t) =
          pySubGo (constRepl [' '] mWsRun) t :=
        nlCollapse_id _ _ hW (le_refl _)
      rw [h1, spec3NlAux_id _ hW]
    unfold strip_html specNormalize stripHtmlL specNormalizeL
    rw [key]

/- ===================== classification gate (C1) ===================== -/

/-- Claim C1: if any phrase of the fixed rejection-indicator list occurs as
a substring of the lower-cased concatenation of normalized body and subject,
`parse_email` returns no result before any extraction, whatever the LLM
stage, the date collaborators or any confirmation-like language in the email
would have produced. -/
theorem c1_rejection_filters_email (apiKey : Option String) (outcome : LLMOutcome)
    (hp : String → Option PDate) (today : PDate) (msg : EmailMessage)
    (h : ∃ p ∈ REJECTION_INDICATORS,
      containsSub p.data
        (strLower (strip_html (get_email_body msg) ++ " " ++
          ((get_email_headers msg).hSubject.getD ""))).data = true) :
    parse_email apiKey outcome hp today msg = .ok none := by
  have hrej : is_rejection_email (strip_html (get_email_body msg))
      ((get_email_headers msg).hSubject.getD "") = true := by
    rcases h with ⟨p, hmem, hsub⟩
    unfold is_rejection_email
    exact List.any_eq_true.2 ⟨p, hmem, hsub⟩
  unfold parse_email
  simp [hrej]

def rejMsg : EmailMessage :=
  { id := "m-rej-1"
    headers := { hFrom := some "Acme Careers <hr@acme.com>", hTo := none,
                 hSubject := some "Update on your application", hDate := none }
    body := "We regret to inform you that we will not be moving forward with your application." }

/-- Witness for C1: a concrete rejection email is filtered. -/
theorem c1_rejection_filters_email_witness :
    parse_email none .networkError (fun _ => none) ⟨2024, 1, 1⟩ rejMsg = .ok none :=
  c1_rejection_filters_email none .networkError (fun _ => none) ⟨2024, 1, 1⟩ rejMsg
    ⟨"regret to inform", by decide, by decide⟩

/- ===================== LLM stage contract (C8) ===================== -/

/-- Claim C8: the LLM stage returns null (Python `None`) when no API key is
configured; every caught failure of the guarded section — network error,
timeout, non-2xx HTTP status, JSON-decode failure, or any other exception —
also yields null rather than propagating; and a nonempty JSON-array response
yields its first element. -/
theorem c8_llm_stage_contract :
    (∀ t su se outcome, extract_with_llm t su se none outcome = .jnull) ∧
    (∀ t su se k,
      extract_with_llm t su se (some k) .networkError = .jnull ∧
      extract_with_llm t su se (some k) .timeoutError = .jnull ∧
      (∀ st, extract_with_llm t su se (some k) (.httpError st) = .jnull) ∧
      extract_with_llm t su se (some k) .jsonDecodeError = .jnull ∧
      extract_with_llm t su se (some k) .otherError = .jnull) ∧
    (∀ t su se k x xs,
      extract_with_llm t su se (some k) (.response (.jarr (x :: xs))) = x) :=
  ⟨fun _ _ _ _ => rfl,
   fun _ _ _ _ => ⟨rfl, rfl, fun _ => rfl, rfl, rfl⟩,
   fun _ _ _ _ _ _ => rfl⟩

/- ===================== merger lemmas ===================== -/

theorem mergeFields_jobj (fields : List (String × Option String)) (rc rp : Option String) :
    mergeFields (.jobj fields) rc rp =
      .ok (regexFallback (llmPick fields "company") rc (qr 7 10),
           regexFallback (llmPick fields "position") rp (qr 4 5)) := by
  cases fields with
  | nil => rfl
  | cons f fs => rfl

theorem mergeFields_jnull (rc rp : Option String) :
    mergeFields .jnull rc rp =
      .ok (regexFallback (none, 0) rc (qr 7 10),
           regexFallback (none, 0) rp (qr 4 5)) := rfl

theorem llmPick_cases (fields : List (String × Option String)) (key : String) :
    llmPick fields key = (none, 0) ∨
    ∃ s, ¬ s.isEmpty ∧ llmPick fields key = (some s, qr 9 10) := by
  unfold llmPick
  rcases dictGet fields key with _ | ov
  · exact Or.inl rfl
  · rcases ov with _ | s
    · exact Or.inl rfl
    · by_cases hs : s.isEmpty
      · exact Or.inl (by simp [hs])
      · exact Or.inr ⟨s, hs, by simp [hs]⟩

/-- A falsy LLM value (None, empty string, empty object, empty array) skips
the LLM assignments. -/
theorem mergeFields_falsy (llm : LLMJson) (h : truthyJson llm = false)
    (rc rp : Option String) :
    mergeFields llm rc rp =
      .ok (regexFallback (none, 0) rc (qr 7 10),
           regexFallback (none, 0) rp (qr 4 5)) := by
  unfold mergeFields
  simp [h]

/-- Every successful merge result is, per field, a regex fallback applied to
either the empty LLM pick or a truthy LLM pick at tier 0.9. -/
theorem mergeFields_ok_shape (llm : LLMJson) (rc rp : Option String)
    (cp pp : Option String × ℚ) (h : mergeFields llm rc rp = .ok (cp, pp)) :
    (cp = regexFallback (none, 0) rc (qr 7 10) ∨
      ∃ s, ¬ s.isEmpty ∧ cp = regexFallback (some s, qr 9 10) rc (qr 7 10)) ∧
    (pp = regexFallback (none, 0) rp (qr 4 5) ∨
      ∃ s, ¬ s.isEmpty ∧ pp = regexFallback (some s, qr 9 10) rp (qr 4 5)) := by
  cases llm with
  | jnull =>
    rw [mergeFields_jnull] at h
    simp only [Except.ok.injEq, Prod.mk.injEq] at h
    exact ⟨Or.inl h.1.symm, Or.inl h.2.symm⟩
  | jstr s =>
    by_cases hs : s.isEmpty
    · rw [mergeFields_falsy _ (by simp [truthyJson, hs]) rc rp] at h
      simp only [Except.ok.injEq, Prod.mk.injEq] at h
      exact ⟨Or.inl h.1.symm, Or.inl h.2.symm⟩
    · unfold mergeFields at h
      simp [truthyJson, hs] at h
  | jarr xs =>
    cases xs with
    | nil =>
      rw [mergeFields_falsy _ (by simp [truthyJson]) rc rp] at h
      simp only [Except.ok.injEq, Prod.mk.injEq] at h
      exact ⟨Or.inl h.1.symm, Or.inl h.2.symm⟩
    | cons x xs =>
      unfold mergeFields at h
      simp [truthyJson] at h
  | jobj fields =>
    rw [mergeFields_jobj] at h
    simp only [Except.ok.injEq, Prod.mk.injEq] at h
    constructor
    · rcases llmPick_cases fields "company" with hp | ⟨s, hs, hp⟩
      · exact Or.inl (by rw [← h.1, hp])
      · exact Or.inr ⟨s, hs, by rw [← h.1, hp]⟩
    · rcases llmPick_cases fields "position" with hp | ⟨s, hs, hp⟩
      · exact Or.inl (by rw [← h.2, hp])
      · exact Or.inr ⟨s, hs, by rw [← h.2, hp]⟩

/-- Company tier: a successful merge with a resolved company assigned it
confidence 0.9 (LLM) or 0.7 (regex). -/
theorem mergeFields_company_tier (llm : LLMJson) (rc rp : Option String)
    (c : String) (cc : ℚ) (pp : Option String × ℚ)
    (h : mergeFields llm rc rp = .ok ((some c, cc), pp)) :
    cc = qr 9 10 ∨ cc = qr 7 10 := by
  rcases (mergeFields_ok_shape llm rc rp _ _ h).1 with hc | ⟨s, hs, hc⟩
  · unfold regexFallback at hc
    split at hc
    · simp only [Prod.mk.injEq] at hc
      exact Or.inr hc.2
    · simp at hc
  · unfold regexFallback at hc
    split at hc
    · simp only [Prod.mk.injEq] at hc
      exact Or.inr hc.2
    · simp only [Prod.mk.injEq] at hc
      exact Or.inl hc.2

/-- Position tier: a successful merge with a resolved position assigned it
confidence 0.9 (LLM) or 0.8 (regex). -/
theorem mergeFields_position_tier (llm : LLMJson) (rc rp : Option String)
    (p : String) (pc : ℚ) (cp : Option String × ℚ)
    (h : mergeFields llm rc rp = .ok (cp, (some p, pc))) :
    pc = qr 9 10 ∨ pc = qr 4 5 := by
  rcases (mergeFields_ok_shape llm rc rp _ _ h).2 with hp | ⟨s, hs, hp⟩
  · unfold regexFallback at hp
    split at hp
    · simp only [Prod.mk.injEq] at hp
      exact Or.inr hp.2
    · simp at hp
  · unfold regexFallback at hp
    split at hp
    · simp only [Prod.mk.injEq] at hp
      exact Or.inr hp.2
    · simp only [Prod.mk.injEq] at hp
      exact Or.inl hp.2

/- ===================== field merger (C2) ===================== -/

/-- Claim C2 (amended): per field the merged value is the LLM result when
truthy (present, non-null and non-empty) at confidence 0.9, else the regex
result when truthy (0.7 for company, 0.8 for position), else null — Python's
truthiness check treats an empty-string LLM or regex value as missing, which
is the one place the original claim's "non-null" wording fails.  If company
is unresolved the orchestrator core returns no result (not an exception);
if position is unresolved it becomes the literal `"N/A"` at confidence 0.5. -/
theorem c2_merge_truthy_preference :
    (∀ fields rc rp, mergeFields (.jobj fields) rc rp =
        .ok (regexFallback (llmPick fields "company") rc (qr 7 10),
             regexFallback (llmPick fields "position") rp (qr 4 5))) ∧
    (∀ fields key s, dictGet fields key = some (some s) → s.isEmpty = false →
        llmPick fields key = (some s, qr 9 10)) ∧
    (∀ fields key, dictGet fields key = none ∨ dictGet fields key = some none ∨
        dictGet fields key = some (some "") → llmPick fields key = (none, 0)) ∧
    (∀ (cur : Option String × ℚ) rv conf, truthyOptStr cur.1 = true →
        regexFallback cur rv conf = cur) ∧
    (∀ (cur : Option String × ℚ) rv conf, truthyOptStr cur.1 = false →
        truthyOptStr rv = true → regexFallback cur rv conf = (rv, conf)) ∧
    (∀ (cur : Option String × ℚ) rv conf, truthyOptStr cur.1 = false →
        truthyOptStr rv = false → regexFallback cur rv conf = cur) ∧
    (∀ msgid subject llm rc rp dres src cc pp,
        mergeFields llm rc rp = .ok ((none, cc), pp) →
        parse_core msgid subject llm rc rp dres src = .ok none) ∧
    (∀ msgid subject llm rc rp (dres : PDate × ℚ) src c cc pc,
        mergeFields llm rc rp = .ok ((some c, cc), (none, pc)) →
        ∃ app, parse_core msgid subject llm rc rp dres src = .ok (some app) ∧
          app.position = "N/A" ∧
          app.confidence = pyRound2 ((cc + 1/2 + dres.2) / 3)) := by
  refine ⟨mergeFields_jobj, ?_, ?_, ?_, ?_, ?_, ?_, ?_⟩
  · intro fields key s h hs
    unfold llmPick
    rw [h]
    simp [hs]
  · intro fields key h
    unfold llmPick
    rcases h with h | h | h <;> (rw [h]; try decide)
  · intro cur rv conf h
    unfold regexFallback
    simp [h]
  · intro cur rv conf h1 h2
    unfold regexFallback
    simp [h1, h2]
  · intro cur rv conf h1 h2
    unfold regexFallback
    simp [h1, h2]
  · intro msgid subject llm rc rp dres src cc pp h
    unfold parse_core
    rw [h]
  · intro msgid subject llm rc rp dres src c cc pc h
    unfold parse_core
    rw [h]
    refine ⟨_, rfl, rfl, ?_⟩
    rw [qAdd_eq, qAdd_eq, qDiv3_eq, qr_eq]
    norm_num

def c2LLMEmpty : LLMJson := .jobj [("company", some ""), ("position", some "")]

/-- Counterexample to C2 as stated: here the LLM produced *non-null* values
for both fields (the empty string), yet the merged company and position are
the regex results — the code's truthiness check, not the claim's null check,
decides. -/
theorem c2_empty_string_counterexample :
    mergeFields c2LLMEmpty (some "Acme") (some "Engineer") =
      .ok ((some "Acme", qr 7 10), (some "Engineer", qr 4 5)) ∧
    (some "" : Option String) ≠ none := ⟨by decide, by decide⟩

/-- Witness for C2: a concrete merge with no LLM data and no regex position
yields the `"N/A"` position at confidence 0.5 inside the mean. -/
theorem c2_merge_truthy_preference_witness :
    ∃ app, parse_core "m-c2" "Greetings" .jnull (some "Acme") none
        (⟨2024, 1, 2⟩, qr 3 10) (some "acme.com") = .ok (some app) ∧
      app.position = "N/A" ∧
      app.confidence = pyRound2 ((qr 7 10 + 1/2 + (qr 3 10 : ℚ)) / 3) :=
  c2_merge_truthy_preference.2.2.2.2.2.2.2 "m-c2" "Greetings" .jnull
    (some "Acme") none (⟨2024, 1, 2⟩, qr 3 10) (some "acme.com")
    "Acme" (qr 7 10) 0 (by decide)

/-- Date tier: the date confidence is always 0.8, 0.6 or 0.3. -/
theorem extract_date_tier (hp : String → Option PDate) (today : PDate)
    (text : String) (headers : Headers) :
    (extract_date hp today text headers).2 = qr 4 5 ∨
    (extract_date hp today text headers).2 = qr 3 5 ∨
    (extract_date hp today text headers).2 = qr 3 10 := by
  unfold extract_date
  rcases textDateSearch date_patterns text.data with _ | d
  · simp only
    split
    · rcases hp (headers.hDate.getD "") with _ | d
      · simp
      · simp
    · simp
  · simp

/- ===================== confidence invariant (C3) ===================== -/

theorem qr_7_10 : qr 7 10 = (7/10 : ℚ) := by rw [qr_eq]; norm_num
theorem qr_9_10 : qr 9 10 = (9/10 : ℚ) := by rw [qr_eq]; norm_num
theorem qr_1_2 : qr 1 2 = (1/2 : ℚ) := by rw [qr_eq]; norm_num
theorem qr_4_5 : qr 4 5 = (4/5 : ℚ) := by rw [qr_eq]; norm_num
theorem qr_3_5 : qr 3 5 = (3/5 : ℚ) := by rw [qr_eq]; norm_num
theorem qr_3_10 : qr 3 10 = (3/10 : ℚ) := by rw [qr_eq]; norm_num

/-- Claim C3: every successfully parsed record's confidence equals
`round((companyConf + positionConf + dateConf)/3, 2)` where the three
sub-confidences are drawn from their tier sets (hence each lies in `[0,1]`),
and the rounded mean itself lies in `[0.0, 1.0]`. -/
theorem c3_confidence_mean_bounds (apiKey : Option String) (outcome : LLMOutcome)
    (hp : String → Option PDate) (today : PDate) (msg : EmailMessage)
    (app : JobApplication)
    (h : parse_email apiKey outcome hp today msg = .ok (some app)) :
    ∃ cc pc dc : ℚ,
      (cc = 7/10 ∨ cc = 9/10) ∧
      (pc = 1/2 ∨ pc = 4/5 ∨ pc = 9/10) ∧
      (dc = 3/10 ∨ dc = 3/5 ∨ dc = 4/5) ∧
      (0 ≤ cc ∧ cc ≤ 1) ∧ (0 ≤ pc ∧ pc ≤ 1) ∧ (0 ≤ dc ∧ dc ≤ 1) ∧
      app.confidence = pyRound2 ((cc + pc + dc) / 3) ∧
      0 ≤ app.confidence ∧ app.confidence ≤ 1 := by
  simp only [parse_email] at h
  split at h
  · exact absurd (Except.ok.inj h) (by simp)
  split at h
  · exact absurd (Except.ok.inj h) (by simp)
  unfold parse_core at h
  rcases hM : mergeFields
      (extract_with_llm (strip_html (get_email_body msg))
        ((get_email_headers msg).hSubject.getD "")
        ((get_email_headers msg).hFrom.getD "") apiKey outcome)
      (extract_company_from_email (strip_html (get_email_body msg))
        (get_email_headers msg))
      (pyOr (match_job_title (strip_html (get_email_body msg)))
        (match_job_title ((get_email_headers msg).hSubject.getD "")))
      with e | ⟨⟨copt, cc0⟩, ⟨popt, pc0⟩⟩
  · rw [hM] at h
    exact absurd h (by simp)
  rw [hM] at h
  cases copt with
  | none => exact absurd h (by simp)
  | some c =>
    have hcc := mergeFields_company_tier _ _ _ _ _ _ hM
    have hccQ : cc0 = 7/10 ∨ cc0 = 9/10 := by
      rcases hcc with h' | h'
      · exact Or.inr (by rw [h', qr_9_10])
      · exact Or.inl (by rw [h', qr_7_10])
    have hdc := extract_date_tier hp today
      (strip_html (get_email_body msg)) (get_email_headers msg)
    have hdcQ : (extract_date hp today (strip_html (get_email_body msg))
        (get_email_headers msg)).2 = 3/10 ∨
        (extract_date hp today (strip_html (get_email_body msg))
          (get_email_headers msg)).2 = 3/5 ∨
        (extract_date hp today (strip_html (get_email_body msg))
          (get_email_headers msg)).2 = 4/5 := by
      rcases hdc with h' | h' | h'
      · exact Or.inr (Or.inr (by rw [h', qr_4_5]))
      · exact Or.inr (Or.inl (by rw [h', qr_3_5]))
      · exact Or.inl (by rw [h', qr_3_10])
    have main : ∀ pcv : ℚ, (pcv = 1/2 ∨ pcv = 4/5 ∨ pcv = 9/10) →
        app.confidence = pyRound2 (qDiv3 (qAdd (qAdd cc0 pcv)
          (extract_date hp today (strip_html (get_email_body msg))
            (get_email_headers msg)).2)) →
        ∃ cc pc dc : ℚ,
          (cc = 7/10 ∨ cc = 9/10) ∧
          (pc = 1/2 ∨ pc = 4/5 ∨ pc = 9/10) ∧
          (dc = 3/10 ∨ dc = 3/5 ∨ dc = 4/5) ∧
          (0 ≤ cc ∧ cc ≤ 1) ∧ (0 ≤ pc ∧ pc ≤ 1) ∧ (0 ≤ dc ∧ dc ≤ 1) ∧
          app.confidence = pyRound2 ((cc + pc + dc) / 3) ∧
          0 ≤ app.confidence ∧ app.confidence ≤ 1 := by
      intro pcv hpcQ hconf
      have hconf2 : app.confidence = pyRound2 ((cc0 + pcv +
          (extract_date hp today (strip_html (get_email_body msg))
            (get_email_headers msg)).2) / 3) := by
        rw [hconf, qAdd_eq, qAdd_eq, qDiv3_eq]
      have hXb : 0 ≤ (cc0 + pcv +
          (extract_date hp today (strip_html (get_email_body msg))
            (get_email_headers msg)).2) / 3 ∧
          (cc0 + pcv +
          (extract_date hp today (strip_html (get_email_body msg))
            (get_email_headers msg)).2) / 3 ≤ 1 := by
        rcases hccQ with h1 | h1 <;> rcases hpcQ with h2 | h2 | h2 <;>
          rcases hdcQ with h3 | h3 | h3 <;> rw [h1, h2, h3] <;> norm_num
      refine ⟨cc0, pcv,
        (extract_date hp today (strip_html (get_email_body msg))
          (get_email_headers msg)).2, hccQ, hpcQ, hdcQ, ?_, ?_, ?_, hconf2, ?_, ?_⟩
      · rcases hccQ with h' | h' <;> rw [h'] <;> norm_num
      · rcases hpcQ with h' | h' | h' <;> rw [h'] <;> norm_num
      · rcases hdcQ with h' | h' | h' <;> rw [h'] <;> norm_num
      · rw [hconf2]
        exact (pyRound2_bounds _ hXb.1 hXb.2).1
      · rw [hconf2]
        exact (pyRound2_bounds _ hXb.1 hXb.2).2
    cases popt with
    | none =>
      simp only [Except.ok.injEq, Option.some.injEq] at h
      exact main (qr 1 2) (Or.inl qr_1_2) (by rw [← h])
    | some p =>
      have hpc := mergeFields_position_tier _ _ _ _ _ _ hM
      simp only [Except.ok.injEq, Option.some.injEq] at h
      refine main pc0 ?_ (by rw [← h])
      rcases hpc with h' | h'
      · exact Or.inr (Or.inr (by rw [h', qr_9_10]))
      · exact Or.inr (Or.inl (by rw [h', qr_4_5]))

def c3Msg : EmailMessage :=
  { id := "m-c3-1"
    headers := { hFrom := some "Acme Careers <hr@acme.com>", hTo := none,
                 hSubject := some "Greetings", hDate := none }
    body := "Hi." }

def c3App : JobApplication :=
  { company := "Acme"
    position := "N/A"
    date_applied := ⟨2024, 1, 1⟩
    source_email_id := "m-c3-1"
    confidence := qr 1 2
    source := some "acme.com"
    notes := some "Subject: Greetings" }

/-- Witness for C3 at a concrete email (regex company, no position, no
date: confidence `round((0.7 + 0.5 + 0.3)/3, 2) = 0.5`). -/
theorem c3_confidence_mean_bounds_witness :
    0 ≤ c3App.confidence ∧ c3App.confidence ≤ 1 := by
  obtain ⟨cc, pc, dc, _, _, _, _, _, _, _, h8, h9⟩ :=
    c3_confidence_mean_bounds none .networkError (fun _ => none) ⟨2024, 1, 1⟩
      c3Msg c3App (by decide)
  exact ⟨h8, h9⟩

/- ===================== synthetic round-trip (C4) ===================== -/

def acmeHeaders : Headers :=
  { hFrom := some "\"Acme Corp\" via Greenhouse <jobs@greenhouse.io>"
    hTo := none
    hSubject := some "Thank you for applying to Acme Corp"
    hDate := none }

/-- The spec's synthetic round-trip email: Greenhouse sender, "Thank you for
applying" subject, a body containing "Software Engineer Intern" and the date
string 2024-03-15. -/
def acmeMsg : EmailMessage :=
  { id := "m-acme-1"
    headers := acmeHeaders
    body := "Thank you for applying to the Software Engineer Intern position at Acme Corp. We received your application on 2024-03-15." }

def acmeApp : JobApplication :=
  { company := "Acme Corp"
    position := "Software Engineer"
    date_applied := ⟨2024, 3, 15⟩
    source_email_id := "m-acme-1"
    confidence := qr 77 100
    source := some "greenhouse.io"
    notes := some "Subject: Thank you for applying to Acme Corp" }

theorem acme_parse_eval :
    parse_email none .networkError (fun _ => none) ⟨2024, 1, 1⟩ acmeMsg =
      .ok (some acmeApp) := by decide

/-- Counterexample to C4 as stated: on the synthetic email the parser's
position is the bare catalogue title "Software Engineer" — neither
"Software Engineer Intern" nor "Intern Software Engineer" — because the
level-capture rule only looks for a level *before* the matched title and
"Intern" follows it. -/
theorem c4_acme_position_counterexample :
    parse_email none .networkError (fun _ => none) ⟨2024, 1, 1⟩ acmeMsg =
      .ok (some acmeApp) ∧
    acmeApp.position ≠ "Software Engineer Intern" ∧
    acmeApp.position ≠ "Intern Software Engineer" :=
  ⟨acme_parse_eval, by decide, by decide⟩

/-- Claim C4 (amended): the synthetic email parses to company "Acme Corp",
position "Software Engineer" (the bare title), date 2024-03-15, and
confidence 0.77 ≥ 0.7. -/
theorem c4_acme_roundtrip_amended :
    parse_email none .networkError (fun _ => none) ⟨2024, 1, 1⟩ acmeMsg =
      .ok (some acmeApp) ∧
    acmeApp.company = "Acme Corp" ∧ acmeApp.position = "Software Engineer" ∧
    acmeApp.date_applied = ⟨2024, 3, 15⟩ ∧ (7/10 : ℚ) ≤ acmeApp.confidence := by
  refine ⟨acme_parse_eval, rfl, rfl, rfl, ?_⟩
  show (7/10 : ℚ) ≤ qr 77 100
  rw [qr_eq]
  norm_num

/- ===================== date fallback chain (C5) ===================== -/

/-- Claim C5: date extraction is total (it returns a pair, never null) and
three-tiered: a parsed in-text date (from the three patterns tried in order
against the body text only — the subject is not an argument) gives
confidence 0.8; else a parseable nonempty date header gives 0.6; else the
current date at 0.3. -/
theorem c5_extract_date_fallback_chain :
    (∀ (hp : String → Option PDate) (today : PDate) (text : String)
        (headers : Headers) (d : PDate),
      textDateSearch date_patterns text.data = some d →
      extract_date hp today text headers = (d, qr 4 5)) ∧
    (∀ (hp : String → Option PDate) (today : PDate) (text : String)
        (headers : Headers) (d : PDate),
      textDateSearch date_patterns text.data = none →
      headers.hDate.getD "" ≠ "" → hp (headers.hDate.getD "") = some d →
      extract_date hp today text headers = (d, qr 3 5)) ∧
    (∀ (hp : String → Option PDate) (today : PDate) (text : String)
        (headers : Headers),
      textDateSearch date_patterns text.data = none →
      (headers.hDate.getD "" = "" ∨ hp (headers.hDate.getD "") = none) →
      extract_date hp today text headers = (today, qr 3 10)) ∧
    (∀ (hp : String → Option PDate) (today : PDate) (text : String)
        (headers : Headers),
      (extract_date hp today text headers).2 = qr 4 5 ∨
      (extract_date hp today text headers).2 = qr 3 5 ∨
      (extract_date hp today text headers).2 = qr 3 10) := by
  refine ⟨?_, ?_, ?_, extract_date_tier⟩
  · intro hp today text headers d h
    unfold extract_date
    rw [h]
  · intro hp today text headers d h h2 h3
    unfold extract_date
    rw [h]
    simp only []
    rw [if_pos h2, h3]
  · intro hp today text headers h h2
    unfold extract_date
    rw [h]
    rcases h2 with h2 | h2
    · simp [h2]
    · by_cases he : headers.hDate.getD "" = ""
      · simp [he]
      · simp only []
        rw [if_pos he, h2]

/-- Witness for C5: text with no recognizable date substring and an absent
date header falls back to "today" at confidence 0.3. -/
theorem c5_extract_date_fallback_chain_witness :
    extract_date (fun _ => none) ⟨2024, 1, 3⟩ "Hello there"
      { hFrom := none, hTo := none, hSubject := none, hDate := none } =
      (⟨2024, 1, 3⟩, qr 3 10) :=
  c5_extract_date_fallback_chain.2.2.1 (fun _ => none) ⟨2024, 1, 3⟩ "Hello there"
    { hFrom := none, hTo := none, hSubject := none, hDate := none }
    (by decide) (Or.inl rfl)

/- ===================== company phrase patterns (C7) ===================== -/

theorem tryPatterns2_accepts : ∀ (ps : List RE) (t : List Char) (c : String),
    tryPatterns2 ps t = some c →
    (∃ cap, c = String.mk (pyStrip cap)) ∧
    genericWords2.contains (strLower c) = false ∧
    1 < c.length ∧ c.length < 50 := by
  intro ps
  induction ps with
  | nil =>
    intro t c h
    exact absurd h (by simp [tryPatterns2])
  | cons p ps ih =>
    intro t c h
    unfold tryPatterns2 at h
    rcases hs : reSearchCap p t with _ | cap
    · rw [hs] at h
      exact ih t c h
    · rw [hs] at h
      simp only [] at h
      split at h
      · next hcond =>
        obtain rfl : String.mk (pyStrip cap) = c := Option.some.inj h
        refine ⟨⟨cap, rfl⟩, ?_, hcond.2.1, hcond.2.2⟩
        exact Bool.not_eq_true _ ▸ hcond.1
      · exact ih t c h

/-- Claim C7 (amended: the phrase patterns are matched against the
normalized body only — the subject is not searched by this strategy): every
company accepted by strategy 2 is a trimmed capture, is not one of the stray
generic words, and has length within 1..49 (the code in fact requires
2..49). -/
theorem c7_company_strategy2_invariants (t : List Char) (c : String)
    (h : companyStrategy2 t = some c) :
    (∃ cap, c = String.mk (pyStrip cap)) ∧
    genericWords2.contains (strLower c) = false ∧
    1 ≤ c.length ∧ c.length ≤ 49 := by
  obtain ⟨h1, h2, h3, h4⟩ := tryPatterns2_accepts company_patterns t c h
  exact ⟨h1, h2, by omega, by omega⟩

/-- Witness for C7 at a concrete body phrase. -/
theorem c7_company_strategy2_invariants_witness :
    companyStrategy2 ("We received your application to Acme.".data) = some "Acme" ∧
    genericWords2.contains (strLower "Acme") = false ∧
    1 ≤ "Acme".length ∧ "Acme".length ≤ 49 := by
  have h : companyStrategy2 ("We received your application to Acme.".data) =
      some "Acme" := by decide
  obtain ⟨_, h2, h3, h4⟩ := c7_company_strategy2_invariants _ _ h
  exact ⟨h, h2, h3, h4⟩

def c7Headers : Headers :=
  { hFrom := some "", hTo := none,
    hSubject := some "Thank you for applying to Acme Corp", hDate := none }

def c7Msg : EmailMessage :=
  { id := "m-c7-1", headers := c7Headers, body := "Hello there." }

/-- Counterexample to C7 as stated: the subject matches the phrase pattern
"Thank you for applying to COMPANY" (strategy 2 applied to the subject would
capture "Acme Corp"), yet company extraction — which searches the body
only — returns nothing and the orchestrator discards the email. -/
theorem c7_subject_not_searched :
    companyStrategy2 ("Thank you for applying to Acme Corp".data) = some "Acme Corp" ∧
    extract_company_from_email "Hello there." c7Headers = none ∧
    parse_email none .networkError (fun _ => none) ⟨2024, 1, 1⟩ c7Msg = .ok none :=
  ⟨by decide, by decide, by decide⟩

/- ===================== orchestrator exception safety (C9) ===================== -/

def c9Msg : EmailMessage :=
  { id := "m-c9-1"
    headers := { hFrom := some "Acme Careers <hr@acme.com>", hTo := none,
                 hSubject := some "Your Acme application", hDate := none }
    body := "Thanks for applying." }

/-- Claim C9 fails on the code: when the LLM stage's guarded section decodes
a truthy non-object JSON value (here the JSON string "Sounds good"),
`extract_with_llm` returns it — despite its `Optional[dict]` annotation —
and the merger's `llm_result.get("company")` raises `AttributeError`, which
propagates out of `parse_email`. -/
theorem c9_merger_attribute_error :
    parse_email (some "k") (.response (.jstr "Sounds good")) (fun _ => none)
      ⟨2024, 1, 1⟩ c9Msg = .error "AttributeError" := by decide

/- ===================== regex position tier (C10) ===================== -/

/-- A truthy LLM pick carries a nonempty string. -/
theorem llmPick_some_nonempty (fields : List (String × Option String)) (key : String)
    (s : String) (x : ℚ) (h : llmPick fields key = (some s, x)) :
    s.isEmpty = false := by
  rcases llmPick_cases fields key with h' | ⟨s', hs', h'⟩
  · rw [h'] at h
    simp at h
  · rw [h'] at h
    simp only [Prod.mk.injEq, Option.some.injEq] at h
    have hss : s = s' := h.1.symm
    subst hss
    cases hb : s.isEmpty
    · rfl
    · exact absurd hb hs'

/-- Claim C10: when the LLM produced no truthy position but the regex title
matcher did (in body or subject), the merged position carries sub-confidence
0.8, which enters the overall mean alongside the company tier (0.9 or 0.7)
and the date tier. -/
theorem c10_regex_position_conf (apiKey : Option String) (outcome : LLMOutcome)
    (hp : String → Option PDate) (today : PDate) (msg : EmailMessage)
    (fields : List (String × Option String)) (p c : String)
    (hrej : is_rejection_email (strip_html (get_email_body msg))
      ((get_email_headers msg).hSubject.getD "") = false)
    (hinc : is_incomplete_application (strip_html (get_email_body msg))
      ((get_email_headers msg).hSubject.getD "") = false)
    (hllm : extract_with_llm (strip_html (get_email_body msg))
      ((get_email_headers msg).hSubject.getD "")
      ((get_email_headers msg).hFrom.getD "") apiKey outcome = .jobj fields)
    (hpos : llmPick fields "position" = (none, 0))
    (hrp : pyOr (match_job_title (strip_html (get_email_body msg)))
      (match_job_title ((get_email_headers msg).hSubject.getD "")) = some p)
    (hpne : p.isEmpty = false)
    (hcomp : llmPick fields "company" = (some c, qr 9 10) ∨
      (llmPick fields "company" = (none, 0) ∧
        extract_company_from_email (strip_html (get_email_body msg))
          (get_email_headers msg) = some c ∧ c.isEmpty = false)) :
    ∃ (app : JobApplication) (cc : ℚ),
      parse_email apiKey outcome hp today msg = .ok (some app) ∧
      app.position = p ∧ (cc = 9/10 ∨ cc = 7/10) ∧
      app.confidence = pyRound2 ((cc + 4/5 +
        (extract_date hp today (strip_html (get_email_body msg))
          (get_email_headers msg)).2) / 3) := by
  simp only [parse_email]
  rw [hrej, hinc]
  simp only [Bool.false_eq_true, if_false]
  rw [hllm, hrp]
  unfold parse_core
  rw [mergeFields_jobj, hpos]
  have hrf : regexFallback ((none : Option String), (0 : ℚ)) (some p) (qr 4 5) =
      (some p, qr 4 5) := by
    unfold regexFallback
    simp [truthyOptStr, hpne]
  rw [hrf]
  rcases hcomp with hL | ⟨hL, hRC, hcne⟩
  · have hcne := llmPick_some_nonempty _ _ _ _ hL
    rw [hL]
    have hrc : regexFallback (some c, qr 9 10)
        (extract_company_from_email (strip_html (get_email_body msg))
          (get_email_headers msg)) (qr 7 10) = (some c, qr 9 10) := by
      unfold regexFallback
      simp [truthyOptStr, hcne]
    rw [hrc]
    refine ⟨_, 9/10, rfl, rfl, Or.inl rfl, ?_⟩
    simp only
    rw [qAdd_eq, qAdd_eq, qDiv3_eq, qr_9_10, qr_4_5]
  · rw [hL, hRC]
    have hrc : regexFallback ((none : Option String), (0 : ℚ)) (some c) (qr 7 10) =
        (some c, qr 7 10) := by
      unfold regexFallback
      simp [truthyOptStr, hcne]
    rw [hrc]
    refine ⟨_, 7/10, rfl, rfl, Or.inr rfl, ?_⟩
    simp only
    rw [qAdd_eq, qAdd_eq, qDiv3_eq, qr_7_10, qr_4_5]

def c10Msg : EmailMessage :=
  { id := "m-c10-1"
    headers := { hFrom := some "Beta Careers <hr@beta.com>", hTo := none,
                 hSubject := some "Hello", hDate := none }
    body := "Regarding the Data Engineer role." }

/-- Witness for C10: the LLM returns an empty JSON object, the catalogue
matcher finds "Data Engineer" in the body, and the 0.8 position tier enters
the mean. -/
theorem c10_regex_position_conf_witness :
    ∃ (app : JobApplication) (cc : ℚ),
      parse_email (some "k") (.response (.jobj [])) (fun _ => none) ⟨2024, 1, 1⟩
        c10Msg = .ok (some app) ∧
      app.position = "Data Engineer" ∧ (cc = 9/10 ∨ cc = 7/10) ∧
      app.confidence = pyRound2 ((cc + 4/5 +
        (extract_date (fun _ => none) ⟨2024, 1, 1⟩
          (strip_html (get_email_body c10Msg)) (get_email_headers c10Msg)).2) / 3) :=
  c10_regex_position_conf (some "k") (.response (.jobj [])) (fun _ => none)
    ⟨2024, 1, 1⟩ c10Msg [] "Data Engineer" "Beta" (by decide) (by decide) rfl
    (by decide) (by decide) (by decide) (Or.inr ⟨by decide, by decide, by decide⟩)

end PaperTrail
